import Mathlib

/-!
A verification development for the JPEG structural decoder of src/jpeg.py.

The Python module is embedded shallowly.  Bytes are natural numbers, the
input buffer is a list of bytes, and every Python method that mutates the
Jpeg object is a Lean function from a parser state to a parser state paired
with an optional error.  Python exceptions (both the exception classes the
module defines and the runtime errors IndexError, ValueError and
AssertionError that its code can hit) are explicit error values; mutations
performed before an exception is raised are kept, exactly as they are kept
on the Python object.  The two bounded loops of the source (the DHT section
loop and the marker dispatch loop) take a fuel argument; running out of fuel
is an error value, never a success, so every theorem about successful runs
is fuel independent.
-/

namespace PyJpeg

/-- Exception kinds observable from the module.  The first five correspond
to the exception classes of the source (NotJpegFileError,
MarkerNotRecognizedError, MarkerNotHandledError, BadFieldError,
BadHuffmanTreeError - the specification names the last one
InvalidHuffmanTableError and the second one UnrecognizedMarkerError);
indexError, valueError and assertionError model the Python runtime errors
IndexError, ValueError (math domain error) and AssertionError; fuelOut is
the artificial out-of-fuel marker of the embedding. -/
inductive JErr where
  | notJpegFile
  | markerNotRecognized
  | markerNotHandled
  | badField
  | badHuffmanTree
  | indexError
  | valueError
  | assertionError
  | fuelOut
  deriving DecidableEq, Repr

/-- An entry of the high lookup dictionary of JpegHuffman: either a decoded
symbol with its bit length, or a reference to the j-th low dictionary (the
source stores the dictionary object itself together with length -1; since
every stored symbol length is at least 1, tagging is faithful). -/
inductive HighEntry where
  | sym (val : Nat) (len : Nat)
  | lowRef (j : Nat)

/-- The two level lookup structure built by JpegHuffman.build_lookups.  The
dictionaries are partial maps from byte values; a missing key is a Python
KeyError on lookup.  lows lists the low dictionaries in the order they were
created, so the entry high = lowRef j refers to lows at position j. -/
structure HuffTable where
  high : Nat → Option HighEntry
  lows : List (Nat → Option (Nat × Nat))

/-- Write v at every key code, code+1, ..., code+interval-1 of the partial
map d; this is the inner loop for j in range(interval) of build_lookups. -/
def setRange {α : Type} (d : Nat → Option α) (code interval : Nat) (v : α) :
    Nat → Option α :=
  fun x => if code ≤ x ∧ x < code + interval then some v else d x

namespace JpegHuffman

/-- One count of the high phase of build_lookups: pop count values, writing
each across interval consecutive high slots.  Popping from an empty values
list is a Python IndexError. -/
def placeHighVals : Nat → (Nat → Option HighEntry) → Nat → List Nat →
    Nat → Nat → Except JErr ((Nat → Option HighEntry) × Nat × List Nat)
  | 0, high, code, values, _, _ => .ok (high, code, values)
  | count + 1, high, code, values, interval, length =>
    match values with
    | [] => .error .indexError
    | v :: vs =>
      placeHighVals count (setRange high code interval (.sym v length))
        (code + interval) vs interval length

/-- The high phase loop of build_lookups over counts_high, with the
validation if (count * interval) + code > MAX_CODE: raise. -/
def highLoop : List Nat → (Nat → Option HighEntry) → Nat → List Nat →
    Nat → Nat → Except JErr ((Nat → Option HighEntry) × Nat × List Nat)
  | [], high, code, values, _, _ => .ok (high, code, values)
  | count :: rest, high, code, values, interval, length =>
    if count * interval + code > 255 then .error .badHuffmanTree
    else
      match placeHighVals count high code values interval length with
      | .error e => .error e
      | .ok (high2, code2, values2) =>
        highLoop rest high2 code2 values2 (interval / 2) (length + 1)

/-- A low dictionary. -/
abbrev LowTab := Nat → Option (Nat × Nat)

/-- One count of the low phase: pop count values into the front pending low
dictionary; when a low fills to 256 entries it is popped off (done keeps it,
since the high dictionary still references it) and code resets to 0.  Taking
lows[0] with no pending low left is a Python IndexError. -/
def placeLowVals : Nat → List LowTab → List LowTab → Nat → List Nat →
    Nat → Nat → Except JErr (List LowTab × List LowTab × Nat × List Nat)
  | 0, done, pending, code, values, _, _ => .ok (done, pending, code, values)
  | count + 1, done, pending, code, values, interval, length =>
    match pending with
    | [] => .error .indexError
    | low :: rest =>
      match values with
      | [] => .error .indexError
      | v :: vs =>
        let low2 := setRange low code interval (v, length)
        let code2 := code + interval
        if code2 = 256 then
          placeLowVals count (done ++ [low2]) rest 0 vs interval length
        else
          placeLowVals count done (low2 :: rest) code2 vs interval length

/-- The low phase loop of build_lookups over counts_low.  numLows is the
number of low dictionaries created before the loop; the source computes it
once and never updates it while lows are popped, and its validation compares
count * interval + code against ((MAX_CODE + 1) * num_lows) - 1. -/
def lowLoop : List Nat → Nat → List LowTab → List LowTab → Nat → List Nat →
    Nat → Nat → Except JErr (List LowTab × List LowTab × Nat × List Nat)
  | [], _, done, pending, code, values, _, _ => .ok (done, pending, code, values)
  | count :: rest, numLows, done, pending, code, values, interval, length =>
    if count * interval + code > 256 * numLows - 1 then .error .badHuffmanTree
    else
      match placeLowVals count done pending code values interval length with
      | .error e => .error e
      | .ok (done2, pending2, code2, values2) =>
        lowLoop rest numLows done2 pending2 code2 values2 (interval / 2) (length + 1)

/-- JpegHuffman.build_lookups: build the two level lookup table from the 16
code length counts and the ordered symbol values.  counts[:8] fill the high
dictionary (codes of length 1..8, interval starting at 0x80); if the high
codes stop before 0x100, every remaining high byte gets its own fresh low
dictionary and counts[8:] fill those (lengths 9..16). -/
def build_lookups (counts values : List Nat) : Except JErr HuffTable :=
  match highLoop (counts.take 8) (fun _ => none) 0 values 128 1 with
  | .error e => .error e
  | .ok (high, code, values2) =>
    if code = 256 then .ok { high := high, lows := [] }
    else
      let numLows := 256 - code
      let high2 : Nat → Option HighEntry :=
        fun x => if code ≤ x ∧ x < 256 then some (.lowRef (x - code)) else high x
      match lowLoop (counts.drop 8) numLows [] (List.replicate numLows (fun _ => none))
          0 values2 128 9 with
      | .error e => .error e
      | .ok (done, pending, _, _) => .ok { high := high2, lows := done ++ pending }

/-- A raw Huffman description: (16 length counts, ordered symbol values). -/
abbrev CVDesc := List Nat × List Nat

/-- The JpegHuffman constructor applied to a (counts, values) tuple. -/
def build (cv : CVDesc) : Except JErr HuffTable :=
  build_lookups cv.1 cv.2

/-- JpegHuffman.lookup: feed the high byte of the 16 bit lookahead into the
high dictionary; a symbol entry answers directly, a low reference consults
the corresponding low dictionary with the low byte.  none models a Python
KeyError (key absent from the dictionary). -/
def lookup (t : HuffTable) (full2 : Nat) : Option (Nat × Nat) :=
  match t.high (full2 / 256 % 256) with
  | none => none
  | some (.sym v l) => some (v, l)
  | some (.lowRef j) =>
    match t.lows.get? j with
    | none => none
    | some low => low (full2 % 256)

/-- Build a table from a description and look a pattern up in it: none when
the build itself fails, some of the lookup result otherwise. -/
def lookupOfDesc (cv : CVDesc) (n : Nat) : Option (Option (Nat × Nat)) :=
  match build cv with
  | .error _ => none
  | .ok t => some (lookup t n)

end JpegHuffman

/-! ## The marker tokenizer, dispatcher and segment decoders -/

/-- Marker kinds, exactly the values of the Jpeg.markers table. -/
inductive Marker where
  | SOF0 | SOF1 | SOF2 | SOF3 | DHT | SOF5 | SOF6 | SOF7 | SOF_JPEG | SOF9
  | SOF10 | SOF11 | DAC | SOF13 | SOF14 | SOF15 | SOI | EOI | SOS | DQT
  | APP0 | APP1 | APP2 | APP3 | APP4 | APP5 | APP6 | APP7 | APP8 | APP9
  | APP10 | APP11 | APP12 | APP13 | APP14 | APP15
  deriving DecidableEq, Repr

/-- Keys of the encoding_type dictionary.  The source uses strings; the
constructors stand for the strings sequential, progressive, arithmetic_code,
lossless, differential and arithmetic.  Note that arithmetic (the keyword
argument the arithmetic coding SOF handlers pass) is a different key from
arithmetic_code (the entry of Jpeg.encoding_types). -/
inductive EKey where
  | sequential | progressive | arithmetic_code | lossless | differential
  | arithmetic
  deriving DecidableEq, Repr

/-- A frame component descriptor, the dictionary appended by handle_sof. -/
structure Component where
  id : Nat
  h_factor : Nat
  v_factor : Nat
  quant_tbl_index : Nat
  deriving DecidableEq, Repr

/-- Dictionary lookup on an association list (Python dict.get). -/
def lookupAssoc {α β : Type} [DecidableEq α] : List (α × β) → α → Option β
  | [], _ => none
  | (k, v) :: rest, k2 => if k = k2 then some v else lookupAssoc rest k2

/-- Dictionary update on an association list (Python dict assignment):
replace the binding in place if the key is present, append it otherwise. -/
def setAssoc {α β : Type} [DecidableEq α] : List (α × β) → α → β → List (α × β)
  | [], k, v => [(k, v)]
  | (k2, v2) :: rest, k, v =>
    if k2 = k then (k, v) :: rest else (k2, v2) :: setAssoc rest k v

/-- The attributes of the Jpeg object, except the buffer and the cursor.
quantization_high_precision is a list of numbers: Python initialises the
slots with False and handle_dqt overwrites a slot with the precision nibble,
an int; False is modelled as 0 (they are == in Python). -/
structure Doc where
  trackers : List (Marker × List Nat)
  image : Option Unit
  is_jfif : Bool
  jfif_version : Option Nat × Option Nat
  density_unit : Option Nat
  x_density : Option Nat
  y_density : Option Nat
  quantization_tables : List (List Nat)
  quantization_high_precision : List Nat
  encoding_type : List (EKey × Bool)
  sample_precision : Nat
  image_height : Nat
  image_width : Nat
  components : List Component
  huffman_data : List (Option JpegHuffman.CVDesc × Option JpegHuffman.CVDesc)
  huffman_ac : List HuffTable
  huffman_dc : List HuffTable

/-- The attribute values set by Jpeg.__init__ before build_from_buf runs. -/
def initDoc : Doc where
  trackers := []
  image := none
  is_jfif := false
  jfif_version := (none, none)
  density_unit := none
  x_density := none
  y_density := none
  quantization_tables := [[], [], [], []]
  quantization_high_precision := [0, 0, 0, 0]
  encoding_type := []
  sample_precision := 0
  image_height := 0
  image_width := 0
  components := []
  huffman_data := [(none, none), (none, none), (none, none), (none, none)]
  huffman_ac := []
  huffman_dc := []

/-- Parser state: the immutable buffer, the cursor self._index, and the
document being populated. -/
structure St where
  buf : List Nat
  index : Nat
  doc : Doc

/-- The result of running a handler: the state after it, and the exception
it raised if any (mutations made before the exception are kept). -/
abbrev StepRes := St × Option JErr

/-- self._buf[i] for a single byte: IndexError (none) past the end. -/
def byteAt (buf : List Nat) (i : Nat) : Option Nat := buf.get? i

/-- struct.unpack of the big endian 16 bit word at buf[i:i+2]; a short
slice is a struct.error (none). -/
def readU16 (buf : List Nat) (i : Nat) : Option Nat :=
  match buf.get? i, buf.get? (i + 1) with
  | some a, some b => some (a * 256 + b)
  | _, _ => none

/-- Read k single bytes starting at i (a run of struct.unpack B calls). -/
def readBytes (buf : List Nat) : Nat → Nat → Option (List Nat)
  | _, 0 => some []
  | i, k + 1 =>
    match byteAt buf i, readBytes buf (i + 1) k with
    | some b, some rest => some (b :: rest)
    | _, _ => none

namespace Jpeg

/-- Jpeg.markers: the byte code to marker kind table. -/
def markers (b : Nat) : Option Marker :=
  match b with
  | 0xc0 => some .SOF0
  | 0xc1 => some .SOF1
  | 0xc2 => some .SOF2
  | 0xc3 => some .SOF3
  | 0xc4 => some .DHT
  | 0xc5 => some .SOF5
  | 0xc6 => some .SOF6
  | 0xc7 => some .SOF7
  | 0xc8 => some .SOF_JPEG
  | 0xc9 => some .SOF9
  | 0xca => some .SOF10
  | 0xcb => some .SOF11
  | 0xcc => some .DAC
  | 0xcd => some .SOF13
  | 0xce => some .SOF14
  | 0xcf => some .SOF15
  | 0xd8 => some .SOI
  | 0xd9 => some .EOI
  | 0xda => some .SOS
  | 0xdb => some .DQT
  | 0xe0 => some .APP0
  | 0xe1 => some .APP1
  | 0xe2 => some .APP2
  | 0xe3 => some .APP3
  | 0xe4 => some .APP4
  | 0xe5 => some .APP5
  | 0xe6 => some .APP6
  | 0xe7 => some .APP7
  | 0xe8 => some .APP8
  | 0xe9 => some .APP9
  | 0xea => some .APP10
  | 0xeb => some .APP11
  | 0xec => some .APP12
  | 0xed => some .APP13
  | 0xee => some .APP14
  | 0xef => some .APP15
  | _ => none

/-- The 8 by 8 entry of Jpeg.zigzag_natural. -/
def zigzag_natural_8 : List Nat :=
  [0, 1, 8, 16, 9, 2, 3, 10,
   17, 24, 32, 25, 18, 11, 4, 5,
   12, 19, 26, 33, 40, 48, 41, 34,
   27, 20, 13, 6, 7, 14, 21, 28,
   35, 42, 49, 56, 57, 50, 43, 36,
   29, 22, 15, 23, 30, 37, 44, 51,
   58, 59, 52, 45, 38, 31, 39, 46,
   53, 60, 61, 54, 47, 55, 62, 63]

/-- Jpeg.zigzag_natural: zigzag order to natural order tables keyed by the
block dimension (dict.get, so an absent key answers none). -/
def zigzag_natural (dim : Nat) : Option (List Nat) :=
  if dim = 2 then some [0, 1, 8, 9]
  else if dim = 3 then some [0, 1, 8, 16, 9, 2, 10, 17, 18]
  else if dim = 4 then some [0, 1, 8, 16, 9, 2, 3, 10,
    17, 24, 25, 18, 11, 19, 26, 27]
  else if dim = 5 then some [0, 1, 8, 16, 9, 2, 3, 10,
    17, 24, 32, 25, 18, 11, 4, 12,
    19, 26, 33, 34, 27, 20, 28, 35,
    36]
  else if dim = 6 then some [0, 1, 8, 16, 9, 2, 3, 10,
    17, 24, 32, 25, 18, 11, 4, 5,
    12, 19, 26, 33, 40, 41, 34, 27,
    20, 13, 21, 28, 35, 42, 43, 36,
    29, 37, 44, 45]
  else if dim = 7 then some [0, 1, 8, 16, 9, 2, 3, 10,
    17, 24, 32, 25, 18, 11, 4, 5,
    12, 19, 26, 33, 40, 48, 41, 34,
    27, 20, 13, 6, 14, 21, 28, 35,
    42, 49, 50, 43, 36, 29, 22, 30,
    37, 44, 51, 52, 45, 38, 46, 53,
    54]
  else if dim = 8 then some zigzag_natural_8
  else none

/-- Jpeg.encoding_types, the keys written by handle_sof. -/
def encoding_types : List EKey :=
  [.sequential, .progressive, .arithmetic_code, .lossless, .differential]

/-- Jpeg.get_marker: require the 0xff marker byte at the cursor, resolve
the following byte through the markers table, advance the cursor by 2. -/
def get_marker (st : St) : St × Except JErr Marker :=
  match byteAt st.buf st.index with
  | none => (st, .error .indexError)
  | some b =>
    if b = 255 then
      match byteAt st.buf (st.index + 1) with
      | none => (st, .error .indexError)
      | some code =>
        match markers code with
        | none => (st, .error .markerNotRecognized)
        | some mk => ({ st with index := st.index + 2 }, .ok mk)
    else (st, .error .markerNotRecognized)

/-- Jpeg.handle_uninteresting_variable_length_header: read the declared
length and advance the cursor by the whole field value. -/
def handle_uninteresting_variable_length_header (st : St) : StepRes :=
  match readU16 st.buf st.index with
  | none => (st, some .indexError)
  | some length => ({ st with index := st.index + length }, none)

/-- Jpeg.handle_soi is a no-op. -/
def handle_soi (st : St) : StepRes := (st, none)

/-- Jpeg.handle_eoi is a no-op. -/
def handle_eoi (st : St) : StepRes := (st, none)

/-- The JFIF identifier bytes, the string JFIF followed by NUL. -/
def jfifIdent : List Nat := [0x4a, 0x46, 0x49, 0x46, 0x00]

/-- Jpeg.handle_app0.  The interesting region must be at least 14 bytes
(Python computes interesting = length - 2 as an int and clips it to 14 when
larger); the identifier must match; versions, density data and the
thumbnail dimensions are read one field at a time, with attribute
assignments interleaved exactly as in the source; the remaining declared
length must equal the packed RGB thumbnail size, which is then skipped. -/
def handle_app0 (st : St) : StepRes :=
  match readU16 st.buf st.index with
  | none => (st, some .indexError)
  | some length =>
    if (length : Int) - 2 < 14 then (st, some .badField)
    else if (st.buf.drop (st.index + 2)).take 5 ≠ jfifIdent then
      (st, some .notJpegFile)
    else
      let st1 : St := { st with doc := { st.doc with is_jfif := true } }
      match byteAt st1.buf (st1.index + 7), byteAt st1.buf (st1.index + 8) with
      | some maj, some minv =>
        let st2 : St :=
          { st1 with doc := { st1.doc with jfif_version := (some maj, some minv) } }
        match byteAt st2.buf (st2.index + 9), readU16 st2.buf (st2.index + 10),
            readU16 st2.buf (st2.index + 12) with
        | some du, some xd, some yd =>
          let st3 : St :=
            { st2 with doc := { st2.doc with
                density_unit := some du, x_density := some xd, y_density := some yd } }
          match byteAt st3.buf (st3.index + 14), byteAt st3.buf (st3.index + 15) with
          | some tx, some ty =>
            if (length : Int) - 16 ≠ 3 * tx * ty then (st3, some .badField)
            else ({ st3 with index := st3.index + 16 + 3 * tx * ty }, none)
          | _, _ => (st3, some .indexError)
        | _, _, _ => (st2, some .indexError)
      | _, _ => (st1, some .indexError)

/-- The entry count computed by handle_dqt: declared length minus 3, floor
halved (Python integer division) when the precision nibble is set.  Python
arithmetic on ints, so the value can be negative for short lengths. -/
def dqtNumEntries (length q : Nat) : Int :=
  if q / 16 ≠ 0 then Int.fdiv ((length : Int) - 3) 2 else (length : Int) - 3

/-- Downward search for the integer square root: the largest s at most c
with s * s ≤ n.  Structural recursion, so it evaluates inside the kernel. -/
def sqrtAux (n : Nat) : Nat → Nat
  | 0 => 0
  | s + 1 => if (s + 1) * (s + 1) ≤ n then s + 1 else sqrtAux n s

/-- The integer square root used to model the float test of the source,
int(math.sqrt(n)) != math.sqrt(n): for 0 <= n < 65536 the correctly
rounded double square root is an integer precisely when n is a perfect
square, and then int truncation yields the exact root, which isqrt
computes.  (The handler consults the value only after the squareness test
has passed, so only the behaviour on perfect squares matters.) -/
def isqrt (n : Nat) : Nat := sqrtAux n n

/-- The entry reading loop of handle_dqt: k entries, each one byte, or two
big endian bytes when the precision nibble is set, scattered into the
natural order table through the zigzag list. -/
def dqtLoop (buf : List Nat) (zz : List Nat) (prec : Bool) :
    Nat → Nat → Nat → List Nat → List Nat × Nat × Option JErr
  | 0, _, index, table => (table, index, none)
  | k + 1, i, index, table =>
    if prec then
      match readU16 buf index with
      | none => (table, index, some .indexError)
      | some e => dqtLoop buf zz prec k (i + 1) (index + 2) (table.set (zz.getD i 0) e)
    else
      match byteAt buf index with
      | none => (table, index, some .indexError)
      | some e => dqtLoop buf zz prec k (i + 1) (index + 1) (table.set (zz.getD i 0) e)

/-- Jpeg.handle_dqt.  The slot index is the low nibble (must be below 4),
the precision flag the high nibble.  The float square root test of the
source, int(math.sqrt(n)) != math.sqrt(n), is modelled through isqrt (see
there); math.sqrt of a negative count raises ValueError.  Only dimension
8 passes the assert. -/
def handle_dqt (st : St) : StepRes :=
  match readU16 st.buf st.index with
  | none => (st, some .indexError)
  | some length =>
  match byteAt st.buf (st.index + 2) with
  | none => (st, some .indexError)
  | some q =>
  if q % 16 ≥ 4 then (st, some .badField)
  else if dqtNumEntries length q < 0 then (st, some .valueError)
  else
    if isqrt (dqtNumEntries length q).toNat * isqrt (dqtNumEntries length q).toNat
        ≠ (dqtNumEntries length q).toNat then (st, some .badField)
    else
      match zigzag_natural (isqrt (dqtNumEntries length q).toNat) with
      | none => (st, some .badField)
      | some zz =>
        if isqrt (dqtNumEntries length q).toNat ≠ 8 then (st, some .assertionError)
        else
          match dqtLoop st.buf zz (q / 16 ≠ 0) (dqtNumEntries length q).toNat 0
              (st.index + 3) (List.replicate (dqtNumEntries length q).toNat 1) with
          | (_, _, some e) => (st, some e)
          | (table, idx, none) =>
            ({ st with
                doc := { st.doc with
                  quantization_tables := st.doc.quantization_tables.set (q % 16) table,
                  quantization_high_precision :=
                    st.doc.quantization_high_precision.set (q % 16) (q / 16) },
                index := idx }, none)

/-- The component loop of handle_sof: per component read the id, the packed
sample factor byte and the quantization slot index (must be below 4), and
append the descriptor.  Components appended before a failure are kept. -/
def sofLoop (buf : List Nat) : Nat → Nat → List Component →
    List Component × Nat × Option JErr
  | 0, index, comps => (comps, index, none)
  | n + 1, index, comps =>
    match byteAt buf index, byteAt buf (index + 1), byteAt buf (index + 2) with
    | some cid, some sf, some qti =>
      if qti ≥ 4 then (comps, index + 3, some .badField)
      else sofLoop buf n (index + 3)
        (comps ++ [{ id := cid, h_factor := sf / 16 % 16, v_factor := sf % 16,
                     quant_tbl_index := qti }])
    | _, _, _ => (comps, index, some .indexError)

/-- Jpeg.handle_sof, shared by every SOF variant.  It first writes all five
encoding_types keys from the keyword arguments (absent keys default to
False), then reads the frame header fields, validates them, and reads the
component descriptors. -/
def handle_sof (kwargs : List (EKey × Bool)) (st : St) : StepRes :=
  let et := encoding_types.foldl
    (fun d t => setAssoc d t ((lookupAssoc kwargs t).getD false)) st.doc.encoding_type
  let st0 : St := { st with doc := { st.doc with encoding_type := et } }
  match readU16 st0.buf st0.index with
  | none => (st0, some .indexError)
  | some length =>
  match byteAt st0.buf (st0.index + 2) with
  | none => (st0, some .indexError)
  | some sp =>
  let st1 : St := { st0 with doc := { st0.doc with sample_precision := sp } }
  match readU16 st1.buf (st1.index + 3) with
  | none => (st1, some .indexError)
  | some ih =>
  let st2 : St := { st1 with doc := { st1.doc with image_height := ih } }
  match readU16 st2.buf (st2.index + 5) with
  | none => (st2, some .indexError)
  | some iw =>
  let st3 : St := { st2 with doc := { st2.doc with image_width := iw } }
  match byteAt st3.buf (st3.index + 7) with
  | none => (st3, some .indexError)
  | some nc =>
  if ih = 0 then (st3, some .badField)
  else if iw = 0 then (st3, some .badField)
  else if nc = 0 then (st3, some .badField)
  else if (length : Int) - 8 ≠ 3 * nc then (st3, some .badField)
  else
    match sofLoop st3.buf nc (st3.index + 8) st3.doc.components with
    | (comps, idx, err) =>
      let st4 : St := { st3 with doc := { st3.doc with components := comps } }
      match err with
      | some e => (st4, some e)
      | none => ({ st4 with index := idx }, none)

/-- SOF0, baseline: no keyword arguments. -/
def handle_sof0 (st : St) : StepRes := handle_sof [] st

/-- SOF1: sequential. -/
def handle_sof1 (st : St) : StepRes := handle_sof [(.sequential, true)] st

/-- SOF2: progressive. -/
def handle_sof2 (st : St) : StepRes := handle_sof [(.progressive, true)] st

/-- SOF3: lossless. -/
def handle_sof3 (st : St) : StepRes := handle_sof [(.lossless, true)] st

/-- SOF5: sequential and differential. -/
def handle_sof5 (st : St) : StepRes :=
  handle_sof [(.sequential, true), (.differential, true)] st

/-- SOF6: progressive and differential. -/
def handle_sof6 (st : St) : StepRes :=
  handle_sof [(.progressive, true), (.differential, true)] st

/-- SOF7: lossless and differential. -/
def handle_sof7 (st : St) : StepRes :=
  handle_sof [(.lossless, true), (.differential, true)] st

/-- SOF9: the source passes sequential=True, arithmetic=True. -/
def handle_sof9 (st : St) : StepRes :=
  handle_sof [(.sequential, true), (.arithmetic, true)] st

/-- SOF10: the source passes progressive=True, arithmetic=True. -/
def handle_sof10 (st : St) : StepRes :=
  handle_sof [(.progressive, true), (.arithmetic, true)] st

/-- SOF11: the source passes progressive=True, differential=True. -/
def handle_sof11 (st : St) : StepRes :=
  handle_sof [(.progressive, true), (.differential, true)] st

/-- SOF13: sequential, differential, arithmetic. -/
def handle_sof13 (st : St) : StepRes :=
  handle_sof [(.sequential, true), (.differential, true), (.arithmetic, true)] st

/-- SOF14: progressive, differential, arithmetic. -/
def handle_sof14 (st : St) : StepRes :=
  handle_sof [(.progressive, true), (.differential, true), (.arithmetic, true)] st

/-- SOF15: lossless, differential, arithmetic. -/
def handle_sof15 (st : St) : StepRes :=
  handle_sof [(.lossless, true), (.differential, true), (.arithmetic, true)] st

/-- Write a (counts, values) description into slot i of huffman_data, in
the DC or the AC component; writing past the end of the 4 slot list is a
Python IndexError (the source checks the slot with a strict greater-than
against 4, so slot 4 reaches this write). -/
def setHuff (hd : List (Option JpegHuffman.CVDesc × Option JpegHuffman.CVDesc))
    (i : Nat) (ac : Bool) (cv : JpegHuffman.CVDesc) :
    Option (List (Option JpegHuffman.CVDesc × Option JpegHuffman.CVDesc)) :=
  match hd.get? i with
  | none => none
  | some (dc0, ac0) =>
    some (hd.set i (if ac then (dc0, some cv) else (some cv, ac0)))

/-- The section loop of handle_dht: while the cursor is before the target
(section start plus declared length), read a selection byte, 16 counts, and
total symbol values; a total above 256 is a BadFieldError, a low nibble
above 4 is a BadFieldError, and the nibble 4 write raises IndexError.  The
loop advances by at least 17 bytes per iteration, so the fuel handle_dht
passes (length + 1) can never run out. -/
def dhtLoop (buf : List Nat) (target : Nat) :
    Nat → Nat → List (Option JpegHuffman.CVDesc × Option JpegHuffman.CVDesc) →
    List (Option JpegHuffman.CVDesc × Option JpegHuffman.CVDesc) × Nat × Option JErr
  | 0, index, hd => (hd, index, some .fuelOut)
  | fuel + 1, index, hd =>
    if index < target then
      match byteAt buf index with
      | none => (hd, index, some .indexError)
      | some hidx =>
        match readBytes buf (index + 1) 16 with
        | none => (hd, index, some .indexError)
        | some counts =>
          if counts.sum > 256 then (hd, index, some .badField)
          else
            match readBytes buf (index + 17) counts.sum with
            | none => (hd, index, some .indexError)
            | some values =>
              if hidx % 16 > 4 then (hd, index, some .badField)
              else
                match setHuff hd (hidx % 16) (hidx / 16 % 2 = 1) (counts, values) with
                | none => (hd, index, some .indexError)
                | some hd2 => dhtLoop buf target fuel (index + 17 + counts.sum) hd2
    else (hd, index, none)

/-- Jpeg.handle_dht: read the declared length, run the section loop, then
require the cursor to sit exactly at the declared end.  The is_ac flag is
bit 4 of the selection byte (hidx / 16 mod 2 in arithmetic form) and the
slot is the low nibble; the source checks slot > 4, not slot >= 4. -/
def handle_dht (st : St) : StepRes :=
  match readU16 st.buf st.index with
  | none => (st, some .indexError)
  | some length =>
    match dhtLoop st.buf (st.index + length) (length + 1) (st.index + 2)
        st.doc.huffman_data with
    | (hd, index, err) =>
      let st2 : St := { st with doc := { st.doc with huffman_data := hd } }
      match err with
      | some e => (st2, some e)
      | none =>
        if index ≠ st.index + length then (st2, some .badField)
        else ({ st2 with index := index }, none)

/-- The table building loop of handle_sos: for each of the four slots, build
a JpegHuffman from the DC description if present and append it, then the
same for the AC description.  Tables appended before a failing build are
kept; a failing build raises its own error. -/
def sosLoop :
    List (Option JpegHuffman.CVDesc × Option JpegHuffman.CVDesc) →
    List HuffTable → List HuffTable →
    List HuffTable × List HuffTable × Option JErr
  | [], dcs, acs => (dcs, acs, none)
  | (dc, ac) :: rest, dcs, acs =>
    match dc with
    | some cv =>
      match JpegHuffman.build cv with
      | .error e => (dcs, acs, some e)
      | .ok t =>
        match ac with
        | some cv2 =>
          match JpegHuffman.build cv2 with
          | .error e => (dcs ++ [t], acs, some e)
          | .ok t2 => sosLoop rest (dcs ++ [t]) (acs ++ [t2])
        | none => sosLoop rest (dcs ++ [t]) acs
    | none =>
      match ac with
      | some cv2 =>
        match JpegHuffman.build cv2 with
        | .error e => (dcs, acs, some e)
        | .ok t2 => sosLoop rest dcs (acs ++ [t2])
      | none => sosLoop rest dcs acs

/-- Jpeg.handle_sos: build the Huffman objects from every populated raw
description, then raise BadFieldError unconditionally (the source never
decodes the scan). -/
def handle_sos (st : St) : StepRes :=
  match sosLoop st.doc.huffman_data st.doc.huffman_dc st.doc.huffman_ac with
  | (dcs, acs, err) =>
    let st2 : St :=
      { st with doc := { st.doc with huffman_dc := dcs, huffman_ac := acs } }
    match err with
    | some e => (st2, some e)
    | none => (st2, some .badField)

/-- Jpeg.marker_handlers: the handler table as populated at class definition
time.  SOF_JPEG is commented out in the source, DAC and APP14 are never
registered, so those three dispatch to MarkerNotHandledError. -/
def marker_handlers (m : Marker) : Option (St → StepRes) :=
  match m with
  | .SOI => some handle_soi
  | .EOI => some handle_eoi
  | .SOS => some handle_sos
  | .DQT => some handle_dqt
  | .DHT => some handle_dht
  | .APP0 => some handle_app0
  | .APP1 => some handle_uninteresting_variable_length_header
  | .APP2 => some handle_uninteresting_variable_length_header
  | .APP3 => some handle_uninteresting_variable_length_header
  | .APP4 => some handle_uninteresting_variable_length_header
  | .APP5 => some handle_uninteresting_variable_length_header
  | .APP6 => some handle_uninteresting_variable_length_header
  | .APP7 => some handle_uninteresting_variable_length_header
  | .APP8 => some handle_uninteresting_variable_length_header
  | .APP9 => some handle_uninteresting_variable_length_header
  | .APP10 => some handle_uninteresting_variable_length_header
  | .APP11 => some handle_uninteresting_variable_length_header
  | .APP12 => some handle_uninteresting_variable_length_header
  | .APP13 => some handle_uninteresting_variable_length_header
  | .APP14 => none
  | .APP15 => some handle_uninteresting_variable_length_header
  | .SOF0 => some handle_sof0
  | .SOF1 => some handle_sof1
  | .SOF2 => some handle_sof2
  | .SOF3 => some handle_sof3
  | .SOF5 => some handle_sof5
  | .SOF6 => some handle_sof6
  | .SOF7 => some handle_sof7
  | .SOF9 => some handle_sof9
  | .SOF10 => some handle_sof10
  | .SOF11 => some handle_sof11
  | .SOF13 => some handle_sof13
  | .SOF14 => some handle_sof14
  | .SOF15 => some handle_sof15
  | .SOF_JPEG => none
  | .DAC => none

/-- Jpeg.handle_marker: resolve the handler (MarkerNotHandledError when
absent), append the current cursor to the tracker list of the marker kind,
then run the handler. -/
def handle_marker (m : Marker) (st : St) : StepRes :=
  match marker_handlers m with
  | none => (st, some .markerNotHandled)
  | some h =>
    let tr := (lookupAssoc st.doc.trackers m).getD []
    let st2 : St :=
      { st with doc :=
          { st.doc with trackers := setAssoc st.doc.trackers m (tr ++ [st.index]) } }
    h st2

/-- The while loop of build_from_buf: as long as the previously handled
marker is not EOI, tokenize the next marker and dispatch it. -/
def build_loop : Nat → Marker → St → St × Option JErr
  | _, .EOI, st => (st, none)
  | 0, _, st => (st, some .fuelOut)
  | fuel + 1, _, st =>
    match get_marker st with
    | (st2, .error e) => (st2, some e)
    | (st2, .ok mk) =>
      match handle_marker mk st2 with
      | (st3, some e) => (st3, some e)
      | (st3, none) => build_loop fuel mk st3

/-- Jpeg.build_from_buf: the first marker must be SOI (else
NotJpegFileError), it is dispatched, and then markers are handled in
arbitrary order until EOI. -/
def build_from_buf (fuel : Nat) (st : St) : St × Option JErr :=
  match get_marker st with
  | (st2, .error e) => (st2, some e)
  | (st2, .ok mk) =>
    if mk ≠ .SOI then (st2, some .notJpegFile)
    else
      match handle_marker mk st2 with
      | (st3, some e) => (st3, some e)
      | (st3, none) => build_loop fuel mk st3

/-- Jpeg.__init__ followed by build_from_buf on a byte buffer: the whole
parse, starting from the empty document and cursor 0. -/
def parse (buf : List Nat) (fuel : Nat) : St × Option JErr :=
  build_from_buf fuel { buf := buf, index := 0, doc := initDoc }

end Jpeg

/-! ## Concrete inputs used by the claims -/

/-- A parser state over a buffer with the cursor just past a marker. -/
def mkSt (buf : List Nat) (i : Nat) : St := { buf := buf, index := i, doc := initDoc }

/-- The end-to-end buffer of specification section 8: SOI, a minimal APP0
(length 16, JFIF, version 1.1, density unit 0, density 72 by 72, no
thumbnail), a DQT with one 8 bit 8 by 8 table of all ones, an SOF0 with one
component, a DHT defining one DC table with a single 1 bit code for symbol
5, and EOI. -/
def c2buf : List Nat :=
  [0xff, 0xd8] ++
  ([0xff, 0xe0, 0x00, 0x10] ++ Jpeg.jfifIdent ++
    [0x01, 0x01, 0x00, 0x00, 0x48, 0x00, 0x48, 0x00, 0x00]) ++
  ([0xff, 0xdb, 0x00, 0x43, 0x00] ++ List.replicate 64 1) ++
  ([0xff, 0xc0, 0x00, 0x0b, 0x08, 0x00, 0x01, 0x00, 0x01, 0x01, 0x01, 0x11, 0x00]) ++
  ([0xff, 0xc4, 0x00, 0x14, 0x00] ++ ([1] ++ List.replicate 15 0) ++ [0x05]) ++
  [0xff, 0xd9]

/-- The Huffman description stored by the DHT segment of c2buf: one code of
length 1 for symbol 5. -/
def c2desc : JpegHuffman.CVDesc := ([1] ++ List.replicate 15 0, [5])

/-- A DQT segment with 16 bit precision and declared length 132: the body
declares 129 entry bytes, which the decoder floor halves to 64 entries and
reads as 128 bytes.  The buffer holds the marker, the length, the
precision and slot byte and exactly 128 entry bytes. -/
def c3buf : List Nat := [0xff, 0xdb, 0x00, 0x84, 0x10] ++ List.replicate 128 1

/-- A DHT segment whose selection byte has low nibble 4 and all zero
counts (declared length 19 = 2 + 1 + 16). -/
def c5buf : List Nat := [0xff, 0xc4, 0x00, 0x13, 0x04] ++ List.replicate 16 0

/-- A minimal valid SOF9 segment: length 11, precision 8, height 1,
width 1, one component (id 1, factors 1 and 1, quantization slot 0). -/
def c6buf : List Nat :=
  [0xff, 0xc9, 0x00, 0x0b, 0x08, 0x00, 0x01, 0x00, 0x01, 0x01, 0x01, 0x11, 0x00]

/-- A DQT segment with declared length 19: 16 entries, a 4 by 4 table. -/
def c7buf : List Nat := [0xff, 0xdb, 0x00, 0x13, 0x00] ++ List.replicate 16 2

/-- SOI, then a DHT storing the unpackable description counts = [3, 0, ...]
(three codes of length one) for the DC slot 0, then an SOS marker. -/
def c10buf : List Nat :=
  [0xff, 0xd8] ++
  ([0xff, 0xc4, 0x00, 0x16, 0x00] ++ ([3] ++ List.replicate 15 0) ++ [1, 2, 3]) ++
  [0xff, 0xda]

/-! ## The zigzag scatter and gather of claim C8 -/

/-- The scatter loop of handle_dqt specialised to the 8 by 8 table: start
from the 64 entry all ones table and write entry i at natural position
zigzag_natural_8[i]. -/
def scatterZZ (l : List Nat) : List Nat :=
  (Jpeg.zigzag_natural_8.zip l).foldl (fun t p => t.set p.1 p.2)
    (List.replicate 64 1)

/-- Read a natural order table back in zigzag order. -/
def gatherZZ (t : List Nat) : List Nat :=
  Jpeg.zigzag_natural_8.map (fun p => t.getD p 0)

/-! ## Helper lemmas about scattered writes -/

/-- Folding element writes over a list of (position, value) pairs leaves a
position that is never written unchanged. -/
theorem foldl_set_getElem?_not_mem (ps : List (Nat × Nat)) (t : List Nat) (p : Nat)
    (hp : p ∉ ps.map Prod.fst) :
    (ps.foldl (fun acc q => acc.set q.1 q.2) t)[p]? = t[p]? := by
  induction ps generalizing t with
  | nil => rfl
  | cons q rest ih =>
    simp only [List.map_cons, List.mem_cons, not_or] at hp
    simp only [List.foldl_cons]
    rw [ih _ hp.2, List.getElem?_set_ne (fun h => hp.1 h.symm)]

/-- When the written positions are distinct and in range, folding the
writes stores each value at its position. -/
theorem foldl_set_getElem?_mem (ps : List (Nat × Nat)) (t : List Nat)
    (hnd : (ps.map Prod.fst).Nodup) (pv : Nat × Nat) (hmem : pv ∈ ps)
    (hlt : pv.1 < t.length) :
    (ps.foldl (fun acc q => acc.set q.1 q.2) t)[pv.1]? = some pv.2 := by
  induction ps generalizing t with
  | nil => cases hmem
  | cons q rest ih =>
    simp only [List.map_cons, List.nodup_cons] at hnd
    simp only [List.foldl_cons]
    rcases List.mem_cons.mp hmem with h | h
    · subst h
      rw [foldl_set_getElem?_not_mem rest _ _ hnd.1,
        List.getElem?_set_eq_of_lt _ hlt]
    · exact ih _ hnd.2 h (by simpa using hlt)

/-- The 8 by 8 zigzag table has no repeated position. -/
theorem zz8_nodup : Jpeg.zigzag_natural_8.Nodup := by decide

/-- Every position of the 8 by 8 zigzag table is below 64. -/
theorem zz8_lt : ∀ x ∈ Jpeg.zigzag_natural_8, x < 64 := by decide

/-- The downward search finds the exact root of a perfect square once the
search start is at least the root. -/
theorem sqrtAux_sq (s : Nat) : ∀ c, s ≤ c → Jpeg.sqrtAux (s * s) c = s := by
  intro c
  induction c with
  | zero => intro h; interval_cases s; rfl
  | succ c ih =>
    intro h
    rcases Nat.lt_or_ge s (c + 1) with hlt | hge
    · have hs : s ≤ c := by omega
      have hgt : ¬ ((c + 1) * (c + 1) ≤ s * s) := by
        have : s * s < (c + 1) * (c + 1) :=
          Nat.mul_lt_mul_of_lt_of_le hlt (Nat.le_of_lt hlt) (by omega)
        omega
      unfold Jpeg.sqrtAux
      rw [if_neg hgt]
      exact ih hs
    · have hs : s = c + 1 := by omega
      subst hs
      unfold Jpeg.sqrtAux
      rw [if_pos (Nat.le_refl _)]

/-- isqrt is exact on perfect squares. -/
theorem isqrt_sq (s : Nat) : Jpeg.isqrt (s * s) = s := by
  unfold Jpeg.isqrt
  apply sqrtAux_sq
  cases s with
  | zero => simp
  | succ k => calc k + 1 = (k + 1) * 1 := by omega
                _ ≤ (k + 1) * (k + 1) := Nat.mul_le_mul_left _ (by omega)

/-- The zigzag table dictionary has no entry outside dimensions 2..8. -/
theorem zigzag_natural_none (s : Nat) (hs : s < 2 ∨ 8 < s) :
    Jpeg.zigzag_natural s = none := by
  unfold Jpeg.zigzag_natural
  rw [if_neg (by omega), if_neg (by omega), if_neg (by omega), if_neg (by omega),
    if_neg (by omega), if_neg (by omega), if_neg (by omega)]

/-! ## Cursor advance lemmas for the segment decoders -/

theorem sofLoop_index (buf : List Nat) :
    ∀ (n idx : Nat) (comps comps2 : List Component) (idx2 : Nat),
      Jpeg.sofLoop buf n idx comps = (comps2, idx2, none) → idx2 = idx + 3 * n := by
  intro n
  induction n with
  | zero =>
    intro idx comps comps2 idx2 h
    unfold Jpeg.sofLoop at h
    simp only [Prod.mk.injEq] at h
    omega
  | succ n ih =>
    intro idx comps comps2 idx2 h
    unfold Jpeg.sofLoop at h
    split at h
    · split at h
      · simp at h
      · have := ih _ _ _ _ h
        omega
    · simp at h

theorem dqtLoop_index (buf zz : List Nat) (prec : Bool) :
    ∀ (k i idx : Nat) (table table2 : List Nat) (idx2 : Nat),
      Jpeg.dqtLoop buf zz prec k i idx table = (table2, idx2, none) →
      idx2 = idx + k * (if prec then 2 else 1) := by
  intro k
  induction k with
  | zero =>
    intro i idx table table2 idx2 h
    unfold Jpeg.dqtLoop at h
    simp only [Prod.mk.injEq] at h
    omega
  | succ k ih =>
    intro i idx table table2 idx2 h
    unfold Jpeg.dqtLoop at h
    split at h
    next hp =>
      split at h
      · simp at h
      · have := ih _ _ _ _ _ h
        rw [if_pos hp] at this ⊢
        omega
    next hp =>
      split at h
      · simp at h
      · have := ih _ _ _ _ _ h
        rw [if_neg hp] at this ⊢
        omega

theorem sofLoop_index2 (buf : List Nat) (n idx : Nat) (comps : List Component)
    (h : (Jpeg.sofLoop buf n idx comps).2.2 = none) :
    (Jpeg.sofLoop buf n idx comps).2.1 = idx + 3 * n := by
  rcases hq : Jpeg.sofLoop buf n idx comps with ⟨c2, i2, err⟩
  rw [hq] at h
  obtain rfl : err = none := h
  exact sofLoop_index buf n idx comps c2 i2 hq

theorem dqtLoop_index2 (buf zz : List Nat) (prec : Bool) (k i idx : Nat) (table : List Nat)
    (h : (Jpeg.dqtLoop buf zz prec k i idx table).2.2 = none) :
    (Jpeg.dqtLoop buf zz prec k i idx table).2.1 = idx + k * (if prec then 2 else 1) := by
  rcases hq : Jpeg.dqtLoop buf zz prec k i idx table with ⟨t2, i2, err⟩
  rw [hq] at h
  obtain rfl : err = none := h
  exact dqtLoop_index buf zz prec k i idx table t2 i2 hq

theorem skipper_cursor (st st' : St) (L : Nat)
    (hL : readU16 st.buf st.index = some L)
    (h : Jpeg.handle_uninteresting_variable_length_header st = (st', none)) :
    st'.index = st.index + L := by
  unfold Jpeg.handle_uninteresting_variable_length_header at h
  simp only [hL, Prod.mk.injEq] at h
  rw [← h.1]

theorem dht_cursor (st st' : St) (L : Nat)
    (hL : readU16 st.buf st.index = some L)
    (h : Jpeg.handle_dht st = (st', none)) :
    st'.index = st.index + L := by
  unfold Jpeg.handle_dht at h
  simp only [hL] at h
  rcases hdl : Jpeg.dhtLoop st.buf (st.index + L) (L + 1) (st.index + 2)
      st.doc.huffman_data with ⟨hd, index, err⟩
  rw [hdl] at h
  cases err with
  | some e => simp at h
  | none =>
    by_cases hif : index ≠ st.index + L
    · rw [if_pos hif] at h
      simp at h
    · rw [if_neg hif] at h
      simp only [Prod.mk.injEq] at h
      rw [← h.1]
      push_neg at hif
      simpa using hif

theorem app0_cursor (st st' : St) (L : Nat)
    (hL : readU16 st.buf st.index = some L)
    (h : Jpeg.handle_app0 st = (st', none)) :
    st'.index = st.index + L := by
  unfold Jpeg.handle_app0 at h
  simp only [hL] at h
  split at h
  · simp at h
  next h14 =>
    split at h
    · simp at h
    next hident =>
      split at h
      next maj minv hmaj =>
        split at h
        next du xd yd hdu =>
          split at h
          next tx ty htx =>
            split at h
            · simp at h
            next hthumb =>
              simp only [Prod.mk.injEq] at h
              rw [← h.1]
              dsimp only
              push_neg at hthumb h14
              zify
              linarith
          next => simp at h
        next => simp at h
      next => simp at h

theorem sof_cursor (kwargs : List (EKey × Bool)) (st st' : St) (L : Nat)
    (hL : readU16 st.buf st.index = some L)
    (h : Jpeg.handle_sof kwargs st = (st', none)) :
    st'.index = st.index + L := by
  unfold Jpeg.handle_sof at h
  simp only [hL] at h
  split at h
  · simp at h
  next sp hsp =>
    split at h
    · simp at h
    next ih hih =>
      split at h
      · simp at h
      next iw hiw =>
        split at h
        · simp at h
        next nc hnc =>
          split at h
          · simp at h
          next hih0 =>
            split at h
            · simp at h
            next hiw0 =>
              split at h
              · simp at h
              next hnc0 =>
                split at h
                · simp at h
                next hlen =>
                  split at h
                  next comps idx e hdl => simp at h
                  next h1x h2x hdl =>
                    simp only [Prod.mk.injEq] at h
                    rw [← h.1]
                    dsimp only
                    rw [sofLoop_index2 st.buf _ _ _ hdl]
                    push_neg at hlen
                    omega

theorem dqt_cursor (st st' : St) (L q : Nat)
    (hL : readU16 st.buf st.index = some L)
    (hq : byteAt st.buf (st.index + 2) = some q)
    (h : Jpeg.handle_dqt st = (st', none)) :
    (q / 16 = 0 → st'.index = st.index + L) ∧
    (q / 16 ≠ 0 → st'.index = st.index + 131 ∧ (L = 131 ∨ L = 132)) := by
  unfold Jpeg.handle_dqt at h
  simp only [hL, hq] at h
  split at h
  · simp at h
  next hq4 =>
    split at h
    · simp at h
    next hn =>
      split at h
      · simp at h
      next hsq =>
        split at h
        · simp at h
        next zz hzz =>
          split at h
          · simp at h
          next h8 =>
            push_neg at hsq h8 hn
            have hm64 : (Jpeg.dqtNumEntries L q).toNat = 64 := by
              rw [h8] at hsq
              omega
            rw [hm64] at h
            split at h
            next e hdl => simp at h
            next h1x h2x hdl =>
              simp only [Prod.mk.injEq] at h
              rw [← h.1]
              dsimp only
              have hidx := dqtLoop_index st.buf zz _ _ _ _ _ _ _ hdl
              constructor
              · intro hq0
                have hb : decide (q / 16 ≠ 0) = false := by simp [hq0]
                rw [hb] at hidx
                simp at hidx
                have hm : Jpeg.dqtNumEntries L q = (L : Int) - 3 := by
                  unfold Jpeg.dqtNumEntries
                  rw [if_neg (by omega)]
                rw [hm] at hm64 hn
                omega
              · intro hq1
                have hb : decide (q / 16 ≠ 0) = true := by simp [hq1]
                rw [hb] at hidx
                simp at hidx
                have hm : Jpeg.dqtNumEntries L q = ((L : Int) - 3) / 2 := by
                  unfold Jpeg.dqtNumEntries
                  rw [if_pos hq1, Int.fdiv_eq_ediv _ (by norm_num)]
                rw [hm] at hm64 hn
                refine ⟨by omega, by omega⟩

/-! ## Claim theorems -/

/-- C1: the claim states that the builder succeeds on every canonical
description with sum(counts) == len(values) that is packable within 16
bits.  The description with two codes of length 1 (counts = [2, 0, ..., 0],
values = [0, 1]) packs the 16 bit code space exactly, yet build_lookups
raises BadHuffmanTreeError: its validation rejects count * interval + code
= 256, the exact fill of the high table, an off by one that its own
short circuit branch for code == 0x100 expects to be reachable. -/
theorem C1_exact_fill_build_fails :
    JpegHuffman.build_lookups ([2] ++ List.replicate 15 0) [0, 1] =
      .error .badHuffmanTree := by
  rfl

/-- C4: the claim states the builder fails with the Huffman table error
exactly when a step would exceed the available code space, 256 times the
remaining low table count for the low tables.  This description (seven high
codes of lengths 1..7 leaving two low tables, then three codes of length 9
and three of length 10, 576 low slots in total against a capacity of 512)
exceeds the remaining space at the length 10 step, but the validation
compares against the initial low table count from the offset inside the
current low table, passes, and the source instead crashes with IndexError
when it takes lows[0] from the exhausted list. -/
theorem C4_stale_low_count_index_error :
    JpegHuffman.build_lookups [1, 1, 1, 1, 1, 1, 1, 0, 3, 3, 0, 0, 0, 0, 0, 0]
      (List.range 13) = .error .indexError := by
  rfl

/-- C5: the claim states that a DHT table selection byte with low nibble at
least 4 fails with BadFieldError.  Nibble 4 does not: the source checks
slot > 4 while huffman_data has four slots, so the write to slot 4 raises
IndexError instead.  (Low nibbles 5..15 do raise BadFieldError.) -/
theorem C5_slot_four_index_error :
    (Jpeg.handle_dht (mkSt c5buf 2)).2 = some .indexError := by
  rfl

/-- C6: the claim states that after dispatching SOF9 both the sequential
flag and the arithmetic coding flag are true.  On a minimal valid SOF9
segment the handler succeeds and sets sequential, but the arithmetic coding
entry arithmetic_code stays false: handle_sof9 passes the keyword
arithmetic, which is not among the encoding_types keys, so its value is
never read. -/
theorem C6_sof9_arithmetic_flag_false :
    (Jpeg.handle_sof9 (mkSt c6buf 2)).2 = none ∧
    lookupAssoc (Jpeg.handle_sof9 (mkSt c6buf 2)).1.doc.encoding_type .sequential =
      some true ∧
    lookupAssoc (Jpeg.handle_sof9 (mkSt c6buf 2)).1.doc.encoding_type .arithmetic_code =
      some false ∧
    lookupAssoc (Jpeg.handle_sof9 (mkSt c6buf 2)).1.doc.encoding_type .arithmetic =
      none := by
  exact ⟨rfl, rfl, rfl, rfl⟩

/-- C9: a buffer whose first byte is 0x00 instead of the 0xff marker
byte makes the parse fail with MarkerNotRecognizedError (the
UnrecognizedMarkerError of the specification) before anything is mutated:
the returned state still has cursor 0 and the pristine initial document,
with an empty tracker index, whatever the rest of the buffer and the fuel. -/
theorem C9_bad_first_byte (rest : List Nat) (fuel : Nat) :
    Jpeg.parse (0 :: rest) fuel =
      ({ buf := 0 :: rest, index := 0, doc := initDoc }, some .markerNotRecognized) := by
  rfl

/-- C9 witness: the parse of the concrete buffer 0x00 0x01 0x02 fails with
MarkerNotRecognizedError and leaves the initial document. -/
theorem C9_bad_first_byte_witness :
    Jpeg.parse [0, 1, 2] 7 =
      ({ buf := [0, 1, 2], index := 0, doc := initDoc }, some .markerNotRecognized) :=
  C9_bad_first_byte [1, 2] 7

/-- C2 counterexample: on the end-to-end buffer of specification section 8
the parse does complete and stores the single 1 bit DC description, but the
table built from it answers the probe 0b1000000000000000 of the claim with
a KeyError (none), not with the defined symbol: the single canonical 1 bit
code is 0, so the pattern with a leading 1 bit falls into the escape region
whose low dictionary was never filled. -/
theorem C2_counterexample :
    (Jpeg.parse c2buf 10).2 = none ∧
    (Jpeg.parse c2buf 10).1.doc.huffman_data =
      [(some c2desc, none), (none, none), (none, none), (none, none)] ∧
    JpegHuffman.lookupOfDesc c2desc 0b1000000000000000 = some none := by
  refine ⟨?_, ?_, ?_⟩ <;> rfl

/-- C2 amended: the parse of the section 8 buffer completes with one
populated quantization slot (slot 0, all ones, in natural order), one
component descriptor, and the stored DC description; the Huffman table
built from that description answers the 16 bit left justified pattern of
its single assigned code - which is 0b0000000000000000, code 0 of length 1
- with the defined symbol 5 at length 1. -/
theorem C2_amended :
    (Jpeg.parse c2buf 10).2 = none ∧
    (Jpeg.parse c2buf 10).1.doc.quantization_tables =
      [List.replicate 64 1, [], [], []] ∧
    (Jpeg.parse c2buf 10).1.doc.components =
      [{ id := 1, h_factor := 1, v_factor := 1, quant_tbl_index := 0 }] ∧
    (Jpeg.parse c2buf 10).1.doc.huffman_data =
      [(some c2desc, none), (none, none), (none, none), (none, none)] ∧
    JpegHuffman.lookupOfDesc c2desc 0b0000000000000000 = some (some (5, 1)) := by
  refine ⟨?_, ?_, ?_, ?_, ?_⟩ <;> rfl

/-- C3 counterexample: handle_dqt on a segment with 16 bit precision and
declared length 132 (odd body size 129, floor halved to 64 entries, 128
entry bytes read) returns without error with the cursor at 133, not at
marker start + length + 2 = 134. -/
theorem C3_counterexample :
    (Jpeg.handle_dqt (mkSt c3buf 2)).2 = none ∧
    (Jpeg.handle_dqt (mkSt c3buf 2)).1.index = 133 ∧ (133 : Nat) ≠ 0 + 132 + 2 := by
  refine ⟨?_, ?_, ?_⟩
  · rfl
  · rfl
  · decide

/-- C7 counterexample: a DQT segment declaring 16 entries - a perfect
square whose side 4 is not the supported 8 - fails with AssertionError
(the assert dqt_dim == 8 of the source), not with BadFieldError as the
claim states. -/
theorem C7_counterexample :
    (Jpeg.handle_dqt (mkSt c7buf 2)).2 = some .assertionError ∧
    JErr.assertionError ≠ JErr.badField := by
  refine ⟨?_, ?_⟩
  · rfl
  · decide

/-- C10 counterexample: the parse of a buffer that reaches SOS after a DHT
stored the unpackable description counts = [3, 0, ..., 0] fails with
BadHuffmanTreeError raised by the table build inside handle_sos, not with
the unconditional BadFieldError of the claim; the tracker index shows SOS
was dispatched. -/
theorem C10_counterexample :
    (Jpeg.parse c10buf 10).2 = some .badHuffmanTree ∧
    lookupAssoc (Jpeg.parse c10buf 10).1.doc.trackers .SOS = some [28] ∧
    JErr.badHuffmanTree ≠ JErr.badField := by
  exact ⟨rfl, rfl, by decide⟩

/-- C10 amended: handle_sos never returns without an error, whatever the
state: it raises BadFieldError when every build of a populated description
succeeds (the loop reports no error), and the failing build error
otherwise.  Hence no parse of a buffer whose parse dispatches SOS ever
terminates in the successful Done state. -/
theorem C10_amended (st : St) :
    (Jpeg.handle_sos st).2.isSome = true ∧
    ((Jpeg.sosLoop st.doc.huffman_data st.doc.huffman_dc st.doc.huffman_ac).2.2 = none →
      (Jpeg.handle_sos st).2 = some .badField) := by
  unfold Jpeg.handle_sos
  rcases h : Jpeg.sosLoop st.doc.huffman_data st.doc.huffman_dc st.doc.huffman_ac with
    ⟨dcs, acs, err⟩
  cases err with
  | none => exact ⟨rfl, fun _ => rfl⟩
  | some e => exact ⟨rfl, fun hc => by simp at hc⟩

/-- C10 amended witness: on the initial state (no stored description) every
build trivially succeeds and handle_sos raises BadFieldError. -/
theorem C10_amended_witness :
    (Jpeg.handle_sos (mkSt [] 0)).2 = some .badField :=
  (C10_amended (mkSt [] 0)).2 rfl

/-- C8: scattering any 64 entry sequence into natural order through the
8 by 8 zigzag table, exactly as the handle_dqt loop does, and re-reading
the result in zigzag order reproduces the original sequence; and the table
is a permutation of 0..63. -/
theorem C8_zigzag_roundtrip_perm :
    (∀ l : List Nat, l.length = 64 → gatherZZ (scatterZZ l) = l) ∧
    List.Perm Jpeg.zigzag_natural_8 (List.range 64) := by
  constructor
  · intro l hl
    have hzzlen : Jpeg.zigzag_natural_8.length = 64 := by decide
    apply List.ext_get
    · simp [gatherZZ, hzzlen, hl]
    · intro j h1 h2
      simp only [gatherZZ, List.get_eq_getElem, List.getElem_map]
      have hj : j < 64 := by simpa [gatherZZ, hzzlen] using h1
      have hple : Jpeg.zigzag_natural_8.length ≤ l.length := by rw [hzzlen, hl]
      have hjz : j < (Jpeg.zigzag_natural_8.zip l).length := by
        simpa [List.length_zip, hzzlen, hl] using hj
      have hjl : j < l.length := by omega
      have hmem : (Jpeg.zigzag_natural_8[j], l[j]) ∈ Jpeg.zigzag_natural_8.zip l := by
        have hz : (Jpeg.zigzag_natural_8.zip l)[j] = (Jpeg.zigzag_natural_8[j], l[j]) :=
          List.getElem_zip
        exact hz ▸ List.getElem_mem hjz
      have hnd : ((Jpeg.zigzag_natural_8.zip l).map Prod.fst).Nodup := by
        rw [List.map_fst_zip _ _ hple]; exact zz8_nodup
      have hlt : Jpeg.zigzag_natural_8[j] < (List.replicate 64 (1 : Nat)).length := by
        rw [List.length_replicate]
        have hjzz : j < Jpeg.zigzag_natural_8.length := by rw [hzzlen]; exact hj
        exact zz8_lt _ (List.getElem_mem hjzz)
      have hw := foldl_set_getElem?_mem (Jpeg.zigzag_natural_8.zip l)
        (List.replicate 64 1) hnd (Jpeg.zigzag_natural_8[j], l[j]) hmem hlt
      show (scatterZZ l).getD Jpeg.zigzag_natural_8[j] 0 = _
      rw [List.getD_eq_getElem?_getD, scatterZZ, hw]
      rfl
  · decide

/-- C8 witness: the round trip at the concrete input 0, 1, ..., 63. -/
theorem C8_zigzag_roundtrip_witness :
    gatherZZ (scatterZZ (List.range 64)) = List.range 64 :=
  C8_zigzag_roundtrip_perm.1 (List.range 64) (by decide)

/-- C3 amended: every segment decoder that returns without error leaves the
cursor at handler entry plus the declared length - that is, at marker start
+ length + 2, since the handler is entered two bytes past the marker start
- with one exception: handle_dqt with the 16 bit precision nibble set.  Its
only successful declared lengths are 131 (even body, the invariant holds)
and 132 (odd body, floor halving), and it always leaves the cursor at entry
+ 131, one byte short of the invariant when the declared length is 132. -/
theorem C3_amended :
    (∀ (st st' : St) (L : Nat), readU16 st.buf st.index = some L →
      Jpeg.handle_uninteresting_variable_length_header st = (st', none) →
      st'.index = st.index + L) ∧
    (∀ (st st' : St) (L : Nat), readU16 st.buf st.index = some L →
      Jpeg.handle_app0 st = (st', none) → st'.index = st.index + L) ∧
    (∀ (kwargs : List (EKey × Bool)) (st st' : St) (L : Nat),
      readU16 st.buf st.index = some L →
      Jpeg.handle_sof kwargs st = (st', none) → st'.index = st.index + L) ∧
    (∀ (st st' : St) (L : Nat), readU16 st.buf st.index = some L →
      Jpeg.handle_dht st = (st', none) → st'.index = st.index + L) ∧
    (∀ (st st' : St) (L q : Nat), readU16 st.buf st.index = some L →
      byteAt st.buf (st.index + 2) = some q → Jpeg.handle_dqt st = (st', none) →
      (q / 16 = 0 → st'.index = st.index + L) ∧
      (q / 16 ≠ 0 → st'.index = st.index + 131 ∧ (L = 131 ∨ L = 132))) :=
  ⟨skipper_cursor, app0_cursor, sof_cursor, dht_cursor, dqt_cursor⟩

/-- C3 amended witness: the skipper over a declared length of 5 lands at
cursor 5, and the 16 bit precision DQT segment c3buf (declared length 132)
succeeds with the cursor at 2 + 131. -/
theorem C3_amended_witness :
    (Jpeg.handle_uninteresting_variable_length_header (mkSt [0, 5, 7, 7, 7] 0)).1.index =
      0 + 5 ∧
    ((Jpeg.handle_dqt (mkSt c3buf 2)).1.index = 2 + 131 ∧
      ((132 : Nat) = 131 ∨ (132 : Nat) = 132)) := by
  constructor
  · exact C3_amended.1 (mkSt [0, 5, 7, 7, 7] 0) _ 5 rfl rfl
  · exact (C3_amended.2.2.2.2 (mkSt c3buf 2) _ 132 16 rfl rfl rfl).2 (by decide)

/-- C7 amended: for a DQT segment whose reads succeed and whose slot nibble
is in range, with a nonnegative computed entry count: a count that is not a
perfect square fails with BadFieldError; a perfect square with side below 2
or above 8 (no zigzag table entry) fails with BadFieldError; a perfect
square with side 2..7 passes the squareness and zigzag checks but fails the
8 by 8 only assertion, AssertionError rather than BadFieldError.  (A
negative computed count - declared length below 3 - is a ValueError from
math.sqrt instead, which is why the nonnegativity hypothesis is part of the
amended claim.) -/
theorem C7_amended (st : St) (L q : Nat)
    (h1 : readU16 st.buf st.index = some L)
    (h2 : byteAt st.buf (st.index + 2) = some q)
    (h3 : q % 16 < 4)
    (h4 : 0 ≤ Jpeg.dqtNumEntries L q) :
    ((∀ s : Nat, s * s ≠ (Jpeg.dqtNumEntries L q).toNat) →
        (Jpeg.handle_dqt st).2 = some .badField) ∧
    (∀ s : Nat, (Jpeg.dqtNumEntries L q).toNat = s * s → (s < 2 ∨ 8 < s) →
        (Jpeg.handle_dqt st).2 = some .badField) ∧
    (∀ s : Nat, (Jpeg.dqtNumEntries L q).toNat = s * s → 2 ≤ s → s ≤ 7 →
        (Jpeg.handle_dqt st).2 = some .assertionError) := by
  unfold Jpeg.handle_dqt
  simp only [h1, h2]
  rw [if_neg (by omega), if_neg (by omega)]
  refine ⟨?_, ?_, ?_⟩
  · intro hns
    rw [if_pos (hns _)]
  · intro s hms hs
    rw [hms, isqrt_sq, if_neg (by simp), zigzag_natural_none s hs]
  · intro s hms hs2 hs7
    rw [hms, isqrt_sq, if_neg (by simp)]
    interval_cases s <;> rfl

/-- C7 amended witness: the 16 entry segment c7buf (length 19, slot byte 0,
count 16 = 4 * 4 with side 4) makes handle_dqt fail with AssertionError. -/
theorem C7_amended_witness :
    (Jpeg.handle_dqt (mkSt c7buf 2)).2 = some .assertionError :=
  (C7_amended (mkSt c7buf 2) 19 0 rfl rfl (by decide) (by decide)).2.2 4
    (by decide) (by decide) (by decide)

end PyJpeg
